import Mathlib

/-!
Verification of the multi-agent document-processing system (classifier,
email / JSON / PDF agents, shared memory store, action router).

The definitions below are a shallow embedding of the Python sources under
`src/`.  Python strings are `String` / `List Char`, Python dicts are
association lists with Python's insert-or-update-in-place semantics, Python
floats are exact rationals extended with infinities and NaN, exceptions are
`Except`, and the fragment of the `re` module the code uses is given by a
small backtracking engine producing matches in Python's priority order.
-/

set_option maxRecDepth 10000

namespace MAS

/-! ### Python string primitives -/

/-- Python whitespace (`str.strip`, regex `\s`), ASCII subset. -/
def isPySpace (c : Char) : Bool :=
  c = ' ' || c = '\t' || c = '\n' || c = '\r' || c = '\x0b' || c = '\x0c'

/-- Regex `\d`. -/
def isDigitChar (c : Char) : Bool := '0' ≤ c && c ≤ '9'

/-- Regex `\w` (ASCII subset of Python's default). -/
def isWordChar (c : Char) : Bool :=
  ('a' ≤ c && c ≤ 'z') || ('A' ≤ c && c ≤ 'Z') || isDigitChar c || c = '_'

/-- `str.lower()` on the character list of a string (ASCII case-folding;
`re.IGNORECASE` is modelled by lowercasing both pattern and input). -/
def lcChars (s : String) : List Char := s.data.map Char.toLower

/-- List-prefix test used to model Python's substring operator. -/
def isPrefixL : List Char → List Char → Bool
  | [], _ => true
  | _ :: _, [] => false
  | a :: as, b :: bs => a = b && isPrefixL as bs

/-- Python's `needle in hay` on strings (substring containment). -/
def containsSub (needle : List Char) : List Char → Bool
  | [] => isPrefixL needle []
  | c :: rest => isPrefixL needle (c :: rest) || containsSub needle rest

/-- Python `str.strip()` (both ends, whitespace). -/
def pyStripChars (s : String) : List Char :=
  ((s.data.dropWhile isPySpace).reverse.dropWhile isPySpace).reverse

/-- Python `str.endswith(suffix)`. -/
def endsWithL (s : String) (suffix : String) : Bool :=
  isPrefixL suffix.data.reverse s.data.reverse

/-- Python `str.replace(old, new)` for a one-character `old`. -/
def replaceCharL (s : String) (old : Char) (new : String) : String :=
  String.mk (s.data.flatMap fun c => if c = old then new.data else [c])

/-- Python `s[:n]`. -/
def takeL (s : String) (n : Nat) : String := String.mk (s.data.take n)

/-! ### Regular-expression engine

A backtracking matcher for the fragment of Python `re` used by the
repository: literals, character classes, alternation, greedy `*` `+` `?`,
lazy `+?`, the `{2,}` repetition, numbered capture groups and the `\b`
word-boundary assertion.  `reRun` returns the list of all ways the pattern
can match a prefix of the input, in Python's backtracking priority order,
each as (last consumed character, remaining suffix, captures); the head of
the list is the match Python commits to.  `fuel` strictly exceeds the
possible recursion depth at every call site. -/

/-- Capture-group assignments: group number paired with the captured text. -/
abbrev Caps := List (Nat × List Char)

inductive RE where
  | eps
  | lit (c : Char)
  | cls (p : Char → Bool)
  | wordB
  | seq (a b : RE)
  | alt (a b : RE)
  | opt (a : RE)
  | star (a : RE)
  | starL (a : RE)
  | group (n : Nat) (a : RE)

def reRun (fuel : Nat) (r : RE) (prev : Option Char) (cs : List Char) :
    List (Option Char × List Char × Caps) :=
  match fuel with
  | 0 => []
  | fuel + 1 =>
    match r with
    | .eps => [(prev, cs, [])]
    | .lit c =>
      match cs with
      | [] => []
      | x :: rest => if x = c then [(some x, rest, [])] else []
    | .cls p =>
      match cs with
      | [] => []
      | x :: rest => if p x then [(some x, rest, [])] else []
    | .wordB =>
      let before := match prev with | some c => isWordChar c | none => false
      let after := match cs with | c :: _ => isWordChar c | [] => false
      if before != after then [(prev, cs, [])] else []
    | .seq a b =>
      (reRun fuel a prev cs).flatMap fun x =>
        (reRun fuel b x.1 x.2.1).map fun y => (y.1, y.2.1, x.2.2 ++ y.2.2)
    | .alt a b => reRun fuel a prev cs ++ reRun fuel b prev cs
    | .opt a => reRun fuel a prev cs ++ [(prev, cs, [])]
    | .star a =>
      ((reRun fuel a prev cs).flatMap fun x =>
        if x.2.1.length < cs.length then
          (reRun fuel (.star a) x.1 x.2.1).map fun y => (y.1, y.2.1, x.2.2 ++ y.2.2)
        else []) ++ [(prev, cs, [])]
    | .starL a =>
      (prev, cs, ([] : Caps)) ::
      ((reRun fuel a prev cs).flatMap fun x =>
        if x.2.1.length < cs.length then
          (reRun fuel (.starL a) x.1 x.2.1).map fun y => (y.1, y.2.1, x.2.2 ++ y.2.2)
        else [])
    | .group n a =>
      (reRun fuel a prev cs).map fun x =>
        (x.1, x.2.1, (n, cs.take (cs.length - x.2.1.length)) :: x.2.2)

/-- Fuel bound: recursion depth is bounded by pattern depth per consumed
character; 64 exceeds the depth of every pattern in the repository. -/
def fuelFor (cs : List Char) : Nat := (cs.length + 1) * 64

/-- `re.search` scan: first position (left to right) where the pattern
matches, returning (suffix at the match start, last char of the match,
suffix after the match, captures). -/
def reSearchCore (r : RE) : Option Char → List Char →
    Option (List Char × Option Char × List Char × Caps)
  | prev, cs =>
    match reRun (fuelFor cs) r prev cs with
    | x :: _ => some (cs, x.1, x.2.1, x.2.2)
    | [] =>
      match cs with
      | [] => none
      | c :: rest => reSearchCore r (some c) rest

/-- Boolean `re.search`. -/
def reSearchB (r : RE) (cs : List Char) : Bool := (reSearchCore r none cs).isSome

/-- Number of non-overlapping matches, as counted by `re.findall`: resume
after each match, advancing one character after an empty match. -/
def reCountAux (fuel : Nat) (r : RE) (prev : Option Char) (cs : List Char) : Nat :=
  match fuel with
  | 0 => 0
  | fuel + 1 =>
    match reSearchCore r prev cs with
    | none => 0
    | some (start, p, after, _) =>
      1 + (if after.length < start.length then reCountAux fuel r p after
           else match start with
                | [] => 0
                | c :: rest => reCountAux fuel r (some c) rest)

/-- All matches of `re.findall`, keeping the captures of each match. -/
def reFindAllCaps (fuel : Nat) (r : RE) (prev : Option Char) (cs : List Char) :
    List Caps :=
  match fuel with
  | 0 => []
  | fuel + 1 =>
    match reSearchCore r prev cs with
    | none => []
    | some (start, p, after, caps) =>
      caps :: (if after.length < start.length then reFindAllCaps fuel r p after
               else match start with
                    | [] => []
                    | c :: rest => reFindAllCaps fuel r (some c) rest)

/-- First capture of group `n`. -/
def capGet (caps : Caps) (n : Nat) : Option (List Char) :=
  (caps.find? (fun x => x.1 = n)).map (·.2)

/-- Sequence of literal characters (a plain-text pattern). -/
def litsRE (s : String) : RE := s.data.foldr (fun c r => .seq (.lit c) r) .eps

/-- `p+` (greedy). -/
def plusRE (a : RE) : RE := .seq a (.star a)

/-- `p{2,}` (greedy). -/
def rep2RE (a : RE) : RE := .seq a (.seq a (.star a))

/-- `p+?` (lazy, as in the PDF line-item pattern `(.+?)`). -/
def plusLazyRE (a : RE) : RE := .seq a (.starL a)

def digitRE : RE := .cls isDigitChar
def spaceRE : RE := .cls isPySpace
def wordRE : RE := .cls isWordChar

/-- A compiled pattern: `anchored` models a leading `^` (no `re.MULTILINE`
anywhere in the repository, so `^` matches only at the very start). -/
structure Pat where
  anchored : Bool
  re : RE

def mkPat (r : RE) : Pat := ⟨false, r⟩

/-- `re.search(pattern, text)` as a Boolean. -/
def patSearch (p : Pat) (cs : List Char) : Bool :=
  if p.anchored then !(reRun (fuelFor cs) p.re none cs).isEmpty
  else (reSearchCore p.re none cs).isSome

/-- `len(re.findall(pattern, text))`. -/
def patCount (p : Pat) (cs : List Char) : Nat :=
  if p.anchored then (if (reRun (fuelFor cs) p.re none cs).isEmpty then 0 else 1)
  else reCountAux (cs.length + 1) p.re none cs

/-! ### Data model enums (src/models/schemas.py) -/

inductive FormatType where
  | email | json | pdf
deriving DecidableEq, Repr

inductive BusinessIntent where
  | rfq | complaint | invoice | regulation | fraudRisk | unknown
deriving DecidableEq, Repr

inductive Urgency where
  | low | medium | high | critical
deriving DecidableEq, Repr

/-! ### ClassifierAgent (src/agents/classifier_agent.py)

Patterns are written lowercased and matched against the lowercased input,
which models `re.IGNORECASE` for the ASCII text involved. -/

/-- `r'@\w+\.\w+'`. -/
def atEmailRE : RE := .seq (.lit '@') (.seq (plusRE wordRE) (.seq (.lit '.') (plusRE wordRE)))

/-- `r'^\s*\x7b'` (leading `^`, so anchored). -/
def jsonStartPat : Pat := ⟨true, .seq (.star spaceRE) (.lit '{')⟩

/-- `r':\s*["\[\x7b]'`. -/
def jsonColonPat : Pat :=
  mkPat (.seq (.lit ':') (.seq (.star spaceRE) (.cls fun c => c = '"' || c = '[' || c = '{')))

/-- `r'":\s*\d+'`. -/
def jsonKeyNumPat : Pat :=
  mkPat (.seq (.lit '"') (.seq (.lit ':') (.seq (.star spaceRE) (plusRE digitRE))))

/-- `self.format_patterns`, in declaration order EMAIL, JSON, PDF. -/
def formatPats : FormatType → List Pat
  | .email =>
    [mkPat (litsRE "subject:"), mkPat (litsRE "from:"), mkPat (litsRE "to:"),
     mkPat atEmailRE, mkPat (litsRE "dear"), mkPat (litsRE "regards"),
     mkPat (litsRE "sincerely")]
  | .json =>
    [jsonStartPat, jsonColonPat, jsonKeyNumPat,
     mkPat (litsRE "webhook"), mkPat (litsRE "payload"), mkPat (litsRE "data")]
  | .pdf =>
    [mkPat (litsRE "%pdf"), mkPat (litsRE "invoice"), mkPat (litsRE "total:"),
     mkPat (litsRE "amount:"), mkPat (litsRE "policy"), mkPat (litsRE "regulation"),
     mkPat (litsRE "compliance")]

/-- `self.intent_keywords`, in declaration order. -/
def intentKws : BusinessIntent → List String
  | .rfq => ["request for quote", "rfq", "quotation", "bid", "proposal", "pricing", "estimate"]
  | .complaint => ["complaint", "dissatisfied", "problem", "issue", "unhappy", "angry",
                   "disappointed", "terrible"]
  | .invoice => ["invoice", "bill", "payment", "amount due", "total:", "line item", "tax",
                 "subtotal"]
  | .regulation => ["gdpr", "compliance", "regulation", "policy", "fda", "sox", "hipaa",
                    "regulatory"]
  | .fraudRisk => ["suspicious", "fraud", "anomaly", "unusual", "security", "breach",
                   "unauthorized", "alert"]
  | .unknown => []

def formatTable : List (FormatType × List Pat) :=
  [(.email, formatPats .email), (.json, formatPats .json), (.pdf, formatPats .pdf)]

def intentTable : List (BusinessIntent × List String) :=
  [(.rfq, intentKws .rfq), (.complaint, intentKws .complaint),
   (.invoice, intentKws .invoice), (.regulation, intentKws .regulation),
   (.fraudRisk, intentKws .fraudRisk)]

/-- Per-format score: `score += len(re.findall(pattern, input_data, re.IGNORECASE))`. -/
def formatScore (ps : List Pat) (cs : List Char) : Nat :=
  ps.foldl (fun acc p => acc + patCount p cs) 0

/-- Per-intent score: one point per keyword contained in the lowercased input. -/
def intentScore (kws : List String) (s : String) : Nat :=
  kws.foldl (fun acc k => acc + (if containsSub (lcChars k) (lcChars s) then 1 else 0)) 0

/-- Python `max(d, key=d.get)` over an association list in insertion order:
the fold keeps the current best unless a later entry is strictly greater, so
ties go to the earliest entry. -/
def maxByVal {α : Type} : List (α × Nat) → Option (α × Nat)
  | [] => none
  | x :: xs => some (xs.foldl (fun best y => if y.2 > best.2 then y else best) x)

def formatScores (s : String) : List (FormatType × Nat) :=
  formatTable.map (fun ft => (ft.1, formatScore ft.2 (lcChars s)))

def intentScores (s : String) : List (BusinessIntent × Nat) :=
  intentTable.map (fun it => (it.1, intentScore it.2 s))

/-- `ClassifierAgent._detect_format`, including the zero-score structural
fallback heuristics. -/
def detectFormat (s : String) : FormatType :=
  match maxByVal (formatScores s) with
  | some bf =>
    if bf.2 > 0 then bf.1
    else
      if (pyStripChars s).head? = some '{' then .json
      else if s.data.contains '@' &&
          (containsSub (lcChars "subject:") (lcChars s) ||
           containsSub (lcChars "from:") (lcChars s)) then .email
      else .pdf
  | none => .pdf

/-- `ClassifierAgent._detect_intent`. -/
def detectIntent (s : String) : BusinessIntent :=
  match maxByVal (intentScores s) with
  | some bi => if bi.2 > 0 then bi.1 else .unknown
  | none => .unknown

/-- `ClassifierAgent._calculate_confidence`: counts, for the chosen format,
the patterns with an `re.search` hit and, for the chosen intent, the keywords
contained in the lowercased input, then averages the two fractions (real
division modelled exactly over `ℚ`). -/
def calculateConfidence (s : String) (f : FormatType) (i : BusinessIntent) : ℚ :=
  let fm : Nat := (formatPats f).foldl
    (fun acc p => acc + (if patSearch p (lcChars s) then 1 else 0)) 0
  let im : Nat := (intentKws i).foldl
    (fun acc k => acc + (if containsSub (lcChars k) (lcChars s) then 1 else 0)) 0
  let tf : Nat := (formatPats f).length
  let ti : Nat := (intentKws i).length
  ((fm : ℚ) / (max tf 1 : Nat) + (im : ℚ) / (max ti 1 : Nat)) / 2

/-! ### Python numbers

Python floats are modelled as exact decimal rationals extended with the
infinities and NaN (decimal literals are taken at their exact value; IEEE
rounding is not modelled, which is irrelevant to all properties below).
JSON distinguishes ints from floats, which matters for `isinstance` checks. -/

inductive PyF where
  | fin (q : ℚ)
  | inf
  | ninf
  | nan
deriving DecidableEq, Repr

inductive PyNum where
  | int (n : ℤ)
  | float (x : PyF)
deriving DecidableEq, Repr

/-- `x < 0` on a Python float (NaN compares false). -/
def PyF.ltZero : PyF → Bool
  | .fin q => q < 0
  | .ninf => true
  | _ => false

/-- `x > k` on a Python float (NaN compares false). -/
def PyF.gtNat (x : PyF) (k : Nat) : Bool :=
  match x with
  | .fin q => (k : ℚ) < q
  | .inf => true
  | _ => false

/-- Python truthiness of a float (`0.0` is falsy; NaN and infinities truthy). -/
def PyF.truthy : PyF → Bool
  | .fin q => q ≠ 0
  | _ => true

def PyNum.toPyF : PyNum → PyF
  | .int n => .fin n
  | .float x => x

/-- `x < k` on an int-or-float JSON number. -/
def PyNum.ltInt (n : PyNum) (k : ℤ) : Bool :=
  match n with
  | .int m => m < k
  | .float (.fin q) => q < (k : ℚ)
  | .float .ninf => true
  | .float _ => false

/-- `x > k` on an int-or-float JSON number. -/
def PyNum.gtInt (n : PyNum) (k : ℤ) : Bool :=
  match n with
  | .int m => k < m
  | .float (.fin q) => (k : ℚ) < q
  | .float .inf => true
  | .float _ => false

def digitsToNat (cs : List Char) : Nat :=
  cs.foldl (fun acc c => 10 * acc + (c.toNat - 48)) 0

/-- Exact rational value of `intPart.fracPart * 10^exp`, built with `mkRat`
so that concrete values reduce inside the kernel. -/
def decToRat (intPart fracPart : List Char) (exp : ℤ) : ℚ :=
  mkRat (((digitsToNat intPart * 10 ^ fracPart.length + digitsToNat fracPart) *
           10 ^ exp.toNat : Nat) : ℤ)
    (10 ^ (fracPart.length + (-exp).toNat))

/-- `-q` when the Boolean sign is set. -/
def ratSign (neg : Bool) (q : ℚ) : ℚ := if neg then -q else q

/-- Model of Python `float(str)`: optional sign, then `inf`/`infinity`/`nan`
(case-insensitive) or a decimal `digits [. digits] [e [sign] digits]` with at
least one digit, surrounded by optional whitespace.  (Digit-group
underscores, accepted by CPython, are not modelled; no input here uses
them.) -/
def pyFloatOfString (s : String) : Option PyF :=
  let cs := (((s.data.dropWhile isPySpace).reverse.dropWhile isPySpace).reverse).map Char.toLower
  let (neg, cs1) :=
    match cs with
    | '+' :: r => (false, r)
    | '-' :: r => (true, r)
    | r => (false, r)
  match cs1 with
  | ['i', 'n', 'f'] => some (if neg then .ninf else .inf)
  | ['i', 'n', 'f', 'i', 'n', 'i', 't', 'y'] => some (if neg then .ninf else .inf)
  | ['n', 'a', 'n'] => some .nan
  | _ =>
    let ip := cs1.takeWhile isDigitChar
    let r1 := cs1.dropWhile isDigitChar
    let (fp, r2) :=
      match r1 with
      | '.' :: r => (r.takeWhile isDigitChar, r.dropWhile isDigitChar)
      | r => ([], r)
    if ip.length + fp.length = 0 then none
    else
      match r2 with
      | [] => some (.fin (ratSign neg (decToRat ip fp 0)))
      | 'e' :: r3 =>
        let (eneg, r4) :=
          match r3 with
          | '+' :: r => (false, r)
          | '-' :: r => (true, r)
          | r => (false, r)
        let ed := r4.takeWhile isDigitChar
        if ed.length = 0 ∨ (r4.dropWhile isDigitChar) ≠ [] then none
        else some (.fin (ratSign neg
          (decToRat ip fp ((if eneg then -1 else 1) * (digitsToNat ed : ℤ)))))
      | _ => none

/-! ### JSON values and `json.loads` (stdlib collaborator of src/agents/json_agent.py)

Objects are association lists with dict semantics: a duplicate key keeps its
first position and takes the last value.  The parser follows the stdlib
grammar (including the non-standard `NaN` / `Infinity` constants CPython
accepts); `\uXXXX` escapes produce the character with that code point. -/

inductive JVal where
  | null
  | bool (b : Bool)
  | num (n : PyNum)
  | str (s : String)
  | arr (xs : List JVal)
  | obj (fields : List (String × JVal))

/-- Python dict insert: update in place if the key exists, else append. -/
def pyDictInsert {α : Type} (d : List (String × α)) (k : String) (v : α) :
    List (String × α) :=
  if (d.find? (fun kv => kv.1 = k)).isSome then
    d.map (fun kv => if kv.1 = k then (k, v) else kv)
  else d ++ [(k, v)]

/-- Association-list lookup (first binding wins; with `pyDictInsert` keys are
unique, so this is dict lookup). -/
def alookup {α : Type} : List (String × α) → String → Option α
  | [], _ => none
  | kv :: rest, key => if kv.1 = key then some kv.2 else alookup rest key

/-- JSON whitespace accepted between tokens by `json.loads`. -/
def isJsonWs (c : Char) : Bool := c = ' ' || c = '\t' || c = '\n' || c = '\r'

def skipJsonWs (cs : List Char) : List Char := cs.dropWhile isJsonWs

def hexVal (c : Char) : Option Nat :=
  if '0' ≤ c ∧ c ≤ '9' then some (c.toNat - 48)
  else if 'a' ≤ c ∧ c ≤ 'f' then some (c.toNat - 87)
  else if 'A' ≤ c ∧ c ≤ 'F' then some (c.toNat - 55)
  else none

/-- JSON string body after the opening quote (strict mode: raw control
characters are rejected, only the standard escapes are allowed). -/
def parseJsonStr (fuel : Nat) (acc : List Char) (cs : List Char) :
    Option (String × List Char) :=
  match fuel with
  | 0 => none
  | fuel + 1 =>
    match cs with
    | [] => none
    | '"' :: rest => some (String.mk acc.reverse, rest)
    | '\\' :: e :: rest =>
      match e with
      | '"' => parseJsonStr fuel ('"' :: acc) rest
      | '\\' => parseJsonStr fuel ('\\' :: acc) rest
      | '/' => parseJsonStr fuel ('/' :: acc) rest
      | 'b' => parseJsonStr fuel ('\x08' :: acc) rest
      | 'f' => parseJsonStr fuel ('\x0c' :: acc) rest
      | 'n' => parseJsonStr fuel ('\n' :: acc) rest
      | 'r' => parseJsonStr fuel ('\r' :: acc) rest
      | 't' => parseJsonStr fuel ('\t' :: acc) rest
      | 'u' =>
        match rest with
        | h1 :: h2 :: h3 :: h4 :: rest2 =>
          match hexVal h1, hexVal h2, hexVal h3, hexVal h4 with
          | some a, some b, some c, some d =>
            parseJsonStr fuel (Char.ofNat (4096 * a + 256 * b + 16 * c + d) :: acc) rest2
          | _, _, _, _ => none
        | _ => none
      | _ => none
    | c :: rest => if c.toNat < 32 then none else parseJsonStr fuel (c :: acc) rest

/-- JSON number token (maximal munch, per the stdlib `NUMBER_RE`): optional
`-`, `0` or nonzero-led digits, optional fraction, optional exponent;
ints stay `int`, anything with a fraction or exponent becomes `float`. -/
def parseJsonNum (cs : List Char) : Option (PyNum × List Char) :=
  let (neg, cs1) := match cs with | '-' :: r => (true, r) | r => (false, r)
  let (ip, r1) : List Char × List Char :=
    match cs1 with
    | '0' :: r => (['0'], r)
    | c :: r =>
      if isDigitChar c ∧ c ≠ '0' then (c :: r.takeWhile isDigitChar, r.dropWhile isDigitChar)
      else ([], c :: r)
    | [] => ([], [])
  if ip = [] then none
  else
    let (fp, r2) : List Char × List Char :=
      match r1 with
      | '.' :: c :: r =>
        if isDigitChar c then (c :: r.takeWhile isDigitChar, r.dropWhile isDigitChar)
        else ([], '.' :: c :: r)
      | r => ([], r)
    let (ep, eneg, r3) : List Char × Bool × List Char :=
      match r2 with
      | 'e' :: r => match r with
        | '+' :: c :: r4 => if isDigitChar c then (c :: r4.takeWhile isDigitChar, false, r4.dropWhile isDigitChar) else ([], false, 'e' :: '+' :: c :: r4)
        | '-' :: c :: r4 => if isDigitChar c then (c :: r4.takeWhile isDigitChar, true, r4.dropWhile isDigitChar) else ([], false, 'e' :: '-' :: c :: r4)
        | c :: r4 => if isDigitChar c then (c :: r4.takeWhile isDigitChar, false, r4.dropWhile isDigitChar) else ([], false, 'e' :: c :: r4)
        | [] => ([], false, ['e'])
      | 'E' :: r => match r with
        | '+' :: c :: r4 => if isDigitChar c then (c :: r4.takeWhile isDigitChar, false, r4.dropWhile isDigitChar) else ([], false, 'E' :: '+' :: c :: r4)
        | '-' :: c :: r4 => if isDigitChar c then (c :: r4.takeWhile isDigitChar, true, r4.dropWhile isDigitChar) else ([], false, 'E' :: '-' :: c :: r4)
        | c :: r4 => if isDigitChar c then (c :: r4.takeWhile isDigitChar, false, r4.dropWhile isDigitChar) else ([], false, 'E' :: c :: r4)
        | [] => ([], false, ['E'])
      | r => ([], false, r)
    if fp = [] ∧ ep = [] then
      some (.int ((if neg then -1 else 1) * (digitsToNat ip : ℤ)), r1)
    else
      some (.float (.fin (ratSign neg
        (decToRat ip fp ((if eneg then -1 else 1) * (digitsToNat ep : ℤ))))), r3)

mutual

/-- One JSON value (leading whitespace allowed). -/
def parseJsonVal (fuel : Nat) (cs : List Char) : Option (JVal × List Char) :=
  match fuel with
  | 0 => none
  | fuel + 1 =>
    match skipJsonWs cs with
    | '{' :: rest =>
      (match skipJsonWs rest with
       | '}' :: rest2 => some (.obj [], rest2)
       | rest2 => parseJsonObj fuel rest2 [])
    | '[' :: rest =>
      (match skipJsonWs rest with
       | ']' :: rest2 => some (.arr [], rest2)
       | rest2 => parseJsonArr fuel rest2 [])
    | '"' :: rest => (parseJsonStr (rest.length + 1) [] rest).map fun sr => (.str sr.1, sr.2)
    | 't' :: 'r' :: 'u' :: 'e' :: rest => some (.bool true, rest)
    | 'f' :: 'a' :: 'l' :: 's' :: 'e' :: rest => some (.bool false, rest)
    | 'n' :: 'u' :: 'l' :: 'l' :: rest => some (.null, rest)
    | 'N' :: 'a' :: 'N' :: rest => some (.num (.float .nan), rest)
    | 'I' :: 'n' :: 'f' :: 'i' :: 'n' :: 'i' :: 't' :: 'y' :: rest =>
      some (.num (.float .inf), rest)
    | '-' :: 'I' :: 'n' :: 'f' :: 'i' :: 'n' :: 'i' :: 't' :: 'y' :: rest =>
      some (.num (.float .ninf), rest)
    | other => (parseJsonNum other).map fun nr => (.num nr.1, nr.2)

/-- Object members, positioned at a member (after `{` or a comma). -/
def parseJsonObj (fuel : Nat) (cs : List Char) (acc : List (String × JVal)) :
    Option (JVal × List Char) :=
  match fuel with
  | 0 => none
  | fuel + 1 =>
    match cs with
    | '"' :: rest =>
      match parseJsonStr (rest.length + 1) [] rest with
      | none => none
      | some (key, r1) =>
        match skipJsonWs r1 with
        | ':' :: r2 =>
          match parseJsonVal fuel r2 with
          | none => none
          | some (v, r3) =>
            let acc2 := pyDictInsert acc key v
            match skipJsonWs r3 with
            | ',' :: r4 => parseJsonObj fuel (skipJsonWs r4) acc2
            | '}' :: r4 => some (.obj acc2, r4)
            | _ => none
        | _ => none
    | _ => none

/-- Array elements, positioned at an element (after `[` or a comma). -/
def parseJsonArr (fuel : Nat) (cs : List Char) (acc : List JVal) :
    Option (JVal × List Char) :=
  match fuel with
  | 0 => none
  | fuel + 1 =>
    match parseJsonVal fuel cs with
    | none => none
    | some (v, r1) =>
      match skipJsonWs r1 with
      | ',' :: r2 => parseJsonArr fuel r2 (acc ++ [v])
      | ']' :: r2 => some (.arr (acc ++ [v]), r2)
      | _ => none

end

/-- `json.loads`: one value, then only trailing whitespace; `none` models a
raised `json.JSONDecodeError`. -/
def jsonLoads (s : String) : Option JVal :=
  match parseJsonVal (s.data.length + 1) s.data with
  | some (v, rest) => if skipJsonWs rest = [] then some v else none
  | none => none

/-! ### Python operations on JSON values

Uncaught Python exceptions are modelled by `Except.error` with the
exception's class name as the message. -/

/-- Python `key in v`: key membership for dicts, element membership for
lists, substring for strings, `TypeError` otherwise. -/
def pyIn (k : String) : JVal → Except String Bool
  | .obj fs => .ok (alookup fs k).isSome
  | .arr xs => .ok (xs.any fun x => match x with | .str s => s = k | _ => false)
  | .str s => .ok (containsSub k.data s.data)
  | _ => .error "TypeError"

/-- Python `v[k]` with a string key: dict lookup (`KeyError` if absent),
`TypeError` for every other type. -/
def pySub (v : JVal) (k : String) : Except String JVal :=
  match v with
  | .obj fs => match alookup fs k with
    | some x => .ok x
    | none => .error "KeyError"
  | _ => .error "TypeError"

/-- Python `float(x)` on a JSON value (`bool` is an `int` subclass); `none`
models a raised `ValueError`/`TypeError`, both caught at the only call
site. -/
def pyFloatOfJVal : JVal → Option PyF
  | .num n => some n.toPyF
  | .bool b => some (.fin (if b then 1 else 0))
  | .str s => pyFloatOfString s
  | _ => none

/-- `isinstance(x, (int, float))` (`bool` included, as in Python). -/
def isNumericPy : JVal → Bool
  | .num _ => true
  | .bool _ => true
  | _ => false

/-- `isinstance(x, (str, int, float))`. -/
def isStrNumPy : JVal → Bool
  | .str _ => true
  | .num _ => true
  | .bool _ => true
  | _ => false

/-- `isinstance(x, (str, int))` — note a JSON float fails this check. -/
def isStrIntPy : JVal → Bool
  | .str _ => true
  | .num (.int _) => true
  | .bool _ => true
  | _ => false

/-- `str(x).lower()` as far as the suspicious-status comparison can observe:
only a string value can ever equal one of the probed words, every other
representation is rendered to text that cannot collide with them. -/
def pyStrLower : JVal → String
  | .str s => String.mk (lcChars s)
  | .bool b => if b then "true" else "false"
  | .null => "none"
  | .num (.int _) => "«int-repr»"
  | .num (.float _) => "«float-repr»"
  | .arr _ => "«list-repr»"
  | .obj _ => "«dict-repr»"

/-! ### `datetime.fromisoformat` (stdlib collaborator)

Modelled from its documented grammar for the common forms
`YYYY-MM-DD[<sep>HH[:MM[:SS[.ffff]]][±HH:MM]]`: calendar-valid date, ranged
time fields.  No theorem below depends on the exact accepted language; the
value only flows into the presence of the `malformed_timestamp` anomaly
tag. -/

def leapYear (y : Nat) : Bool := (y % 4 = 0 ∧ y % 100 ≠ 0) ∨ y % 400 = 0

def daysInMonth (y m : Nat) : Nat :=
  if m = 2 then (if leapYear y then 29 else 28)
  else if m = 4 ∨ m = 6 ∨ m = 9 ∨ m = 11 then 30
  else 31

def twoDig (a b : Char) : Option Nat :=
  if isDigitChar a ∧ isDigitChar b then some (10 * (a.toNat - 48) + (b.toNat - 48)) else none

/-- Optional `±HH:MM` offset then end of input. -/
def isoTzParses (cs : List Char) : Bool :=
  match cs with
  | [] => true
  | sgn :: h1 :: h2 :: ':' :: m1 :: m2 :: [] =>
    (sgn = '+' || sgn = '-') &&
    (match twoDig h1 h2, twoDig m1 m2 with
     | some hh, some mm => decide (hh ≤ 23) && decide (mm ≤ 59)
     | _, _ => false)
  | _ => false

/-- Time part `HH[:MM[:SS[.f+]]]` followed by an optional offset. -/
def isoTimeParses (cs : List Char) : Bool :=
  match cs with
  | h1 :: h2 :: rest =>
    match twoDig h1 h2 with
    | none => false
    | some hh =>
      decide (hh ≤ 23) &&
      (match rest with
       | [] => true
       | ':' :: m1 :: m2 :: rest2 =>
         (match twoDig m1 m2 with
          | none => false
          | some mm =>
            decide (mm ≤ 59) &&
            (match rest2 with
             | [] => true
             | ':' :: s1 :: s2 :: rest3 =>
               (match twoDig s1 s2 with
                | none => false
                | some ss =>
                  decide (ss ≤ 59) &&
                  (match rest3 with
                   | '.' :: fs =>
                     !(fs.takeWhile isDigitChar).isEmpty &&
                     isoTzParses (fs.dropWhile isDigitChar)
                   | other => isoTzParses other))
             | other => isoTzParses other))
       | other => isoTzParses other)
  | _ => false

/-- Whether `datetime.fromisoformat` accepts the string (after the agent's
`Z → +00:00` substitution). -/
def isoParses (s : String) : Bool :=
  match s.data with
  | y1 :: y2 :: y3 :: y4 :: '-' :: m1 :: m2 :: '-' :: d1 :: d2 :: rest =>
    (match twoDig y1 y2, twoDig y3 y4, twoDig m1 m2, twoDig d1 d2 with
     | some ya, some yb, some mm, some dd =>
       decide (1 ≤ mm) && decide (mm ≤ 12) && decide (1 ≤ dd) &&
       decide (dd ≤ daysInMonth (100 * ya + yb) mm)
     | _, _, _, _ => false) &&
    (match rest with
     | [] => true
     | sep :: timeRest => (sep = 'T' || sep = 't' || sep = ' ') && isoTimeParses timeRest)
  | _ => false

/-! ### JSONAgent (src/agents/json_agent.py) -/

/-- `self.webhook_schemas`: type name, required fields, optional fields. -/
def webhookSchemas : List (String × List String × List String) :=
  [("payment", (["transaction_id", "amount", "currency", "status"],
                ["user_id", "timestamp", "method"])),
   ("user_event", (["user_id", "event_type", "timestamp"],
                   ["data", "session_id", "ip_address"])),
   ("order", (["order_id", "customer_id", "items", "total"],
              ["shipping_address", "billing_address", "status"])),
   ("system_alert", (["alert_type", "severity", "message", "timestamp"],
                     ["source", "details", "correlation_id"]))]

/-- `JSONAgent._detect_webhook_type`: presence-of-field heuristics in fixed
order, `"unknown"` for a non-dict payload. -/
def detectWebhookType (v : JVal) : String :=
  match v with
  | .obj fs =>
    if ["transaction_id", "payment_id", "amount", "currency"].any
        (fun k => (alookup fs k).isSome) then "payment"
    else if ["user_id", "event_type", "session_id"].any
        (fun k => (alookup fs k).isSome) then "user_event"
    else if ["order_id", "customer_id", "items"].any
        (fun k => (alookup fs k).isSome) then "order"
    else if ["alert_type", "severity", "message"].any
        (fun k => (alookup fs k).isSome) then "system_alert"
    else "generic"
  | _ => "unknown"

/-- `JSONAgent._validate_field_types`.  Reached only when the webhook type is
in the schema table (hence, via `process`, only on dict payloads); the other
branches model Python iteration of non-dicts for completeness.  Error-message
text is modelled without quote punctuation. -/
def validateFieldTypes (v : JVal) (errs : List String) : Except String (List String) := do
  let hasAmount ← pyIn "amount" v
  let errs ←
    if hasAmount then do
      let a ← pySub v "amount"
      pure (errs ++ (if isNumericPy a then [] else ["Field amount should be numeric"]))
    else pure errs
  let hasTs ← pyIn "timestamp" v
  let errs ←
    if hasTs then do
      let t ← pySub v "timestamp"
      pure (errs ++ (if isStrNumPy t then [] else ["Field timestamp should be string or number"]))
    else pure errs
  match v with
  | .obj fs =>
    pure (fs.foldl (fun es kv =>
      if endsWithL kv.1 "_id" ∧ ¬ isStrIntPy kv.2 then
        es ++ ["ID field " ++ kv.1 ++ " should be string or number"]
      else es) errs)
  | .str _ => pure errs
  | .arr xs =>
    xs.foldlM (fun es x =>
      match x with
      | .str k => if endsWithL k "_id" then .error "TypeError" else pure es
      | _ => .error "AttributeError") errs
  | _ => .error "TypeError"

/-- `JSONAgent._validate_schema`: required-field presence / non-null for the
inferred type (auto-pass for types outside the table), then the cross-cutting
type checks. -/
def validateSchema (v : JVal) (wt : String) : Except String (Bool × List String) := do
  match alookup (webhookSchemas.map fun x => (x.1, x.2.1)) wt with
  | none => pure (true, [])
  | some required => do
    let errs ← required.foldlM (fun es field => do
      let present ← pyIn field v
      if ¬ present then
        pure (es ++ ["Missing required field: " ++ field])
      else do
        let x ← pySub v field
        pure (es ++ (match x with | .null => ["Required field " ++ field ++ " is null"] | _ => []))) []
    let errs ← validateFieldTypes v errs
    pure (errs.isEmpty, errs)

/-- `JSONAgent._detect_anomalies`.  The `try` around the amount conversion
catches `ValueError` and `TypeError` (including a failing subscript); the
`try` around the timestamp checks catches only `ValueError`, so a failing
timestamp subscript propagates. -/
def detectAnomalies (v : JVal) (wt : String) : Except String (List String) := do
  let hasAmount ← pyIn "amount" v
  let amountAnoms : List String :=
    if hasAmount then
      match (do let x ← pySub v "amount"
                match pyFloatOfJVal x with
                | some f => Except.ok f
                | none => Except.error "ValueError" : Except String PyF) with
      | .ok f =>
        if f.ltZero then ["negative_amount"]
        else if f.gtNat 100000 then ["unusually_high_amount"]
        else []
      | .error _ => ["invalid_amount_format"]
    else []
  let hasTs ← pyIn "timestamp" v
  let tsAnoms ←
    if hasTs then do
      let t ← pySub v "timestamp"
      match t with
      | .str s =>
        pure (if isoParses (replaceCharL s 'Z' "+00:00") then [] else ["malformed_timestamp"])
      | .num n =>
        pure (if n.ltInt 0 ∨ n.gtInt 2147483647 then ["invalid_timestamp_range"] else [])
      | .bool _ => pure ([] : List String)
      | _ => pure ([] : List String)
    else pure ([] : List String)
  let itemAnoms ←
    if wt = "order" then do
      let hasItems ← pyIn "items" v
      if hasItems then do
        let x ← pySub v "items"
        pure (match x with | .arr [] => ["empty_items_array"] | _ => [])
      else pure ([] : List String)
    else pure ([] : List String)
  let hasStatus ← pyIn "status" v
  let statusAnoms ←
    if hasStatus then do
      let x ← pySub v "status"
      pure (if ["test", "debug", "fake", "dummy"].contains (pyStrLower x)
            then ["suspicious_status_value"] else [])
    else pure ([] : List String)
  pure (amountAnoms ++ tsAnoms ++ itemAnoms ++ statusAnoms)

/-- `JSONAgent._recommend_actions`. -/
def recommendActions (anomalies : List String) (schemaValid : Bool) : List String :=
  (if schemaValid then [] else ["log_schema_violation", "notify_integration_team"]) ++
  (if anomalies.isEmpty then ["process_normally"]
   else
     (if anomalies.any (fun a => a = "negative_amount" ∨ a = "unusually_high_amount")
      then ["flag_financial_review"] else []) ++
     (if anomalies.contains "malformed_timestamp" then ["log_data_quality_issue"] else []) ++
     (if 2 < anomalies.length then ["quarantine_for_review"] else []))

/-- `JSONAgent._extract_fields`, kept only for its exception behaviour (the
extracted dictionary itself is not referenced by any verified property): the
membership probes and subscripts run in source order, and the final
`len(json_data)` raises `TypeError` on a non-sized payload. -/
def extractFieldsExc (v : JVal) : Except String Unit := do
  let _ ← ["user_id", "customer_id", "transaction_id", "order_id",
           "amount", "currency", "status", "timestamp", "event_type"].foldlM
    (fun _ f => do
      let p ← pyIn f v
      if p then do
        let _ ← pySub v f
        pure ()
      else pure ()) ()
  let hd ← pyIn "data" v
  if hd then do
    let _ ← pySub v "data"
    pure ()
  else pure ()
  match v with
  | .obj _ => pure ()
  | .arr _ => pure ()
  | .str _ => pure ()
  | _ => .error "TypeError"

/-- The claim-relevant fields of the `JSONAgent.process` result envelope.
The raw payload echo, extracted-fields dictionary and confidence metadata of
the Python result are not modelled; no verified property mentions them. -/
structure JsonResult where
  agent : String
  webhookType : String
  schemaValid : Bool
  validationErrors : List String
  anomalies : List String
  recommendedActions : List String
  parsedSuccessfully : Bool
deriving DecidableEq, Repr

/-- The terminal result of the `json.JSONDecodeError` handler (the parse
error detail appended to the validation message is not modelled). -/
def invalidJsonResult : JsonResult :=
  { agent := "JSONAgent"
    webhookType := "invalid"
    schemaValid := false
    validationErrors := ["JSON Parse Error"]
    anomalies := ["malformed_json"]
    recommendedActions := ["log_error", "alert_admin"]
    parsedSuccessfully := false }

/-- `JSONAgent.process`: parse, detect type, validate, detect anomalies,
extract fields, and assemble the result; `Except.error` models an uncaught
exception escaping to the caller (`json.JSONDecodeError` is the only caught
one). -/
def jsonProcess (s : String) : Except String JsonResult :=
  match jsonLoads s with
  | none => .ok invalidJsonResult
  | some payload => do
    let wt := detectWebhookType payload
    let ve ← validateSchema payload wt
    let anoms ← detectAnomalies payload wt
    extractFieldsExc payload
    pure { agent := "JSONAgent"
           webhookType := wt
           schemaValid := ve.1
           validationErrors := ve.2
           anomalies := anoms
           recommendedActions := recommendActions anoms ve.1
           parsedSuccessfully := true }

/-! ### EmailAgent (src/agents/email_agent.py) -/

/-- `self.urgency_keywords`, in declaration order CRITICAL, HIGH, MEDIUM,
LOW. -/
def urgencyTable : List (Urgency × List String) :=
  [(.critical, ["critical", "emergency", "urgent", "asap", "immediate"]),
   (.high, ["important", "priority", "soon", "quickly", "expedite"]),
   (.medium, ["please", "when possible", "at your convenience"]),
   (.low, ["whenever", "no rush", "low priority"])]

/-- `r'!\x7b2,\x7d'` searched on the raw (not lowercased) text. -/
def bangBangRE : RE := rep2RE (.lit '!')

/-- `r'by\s+(?:today|tomorrow|end of day|eod)'` searched on the lowercased
text. -/
def deadlineRE : RE :=
  .seq (litsRE "by") (.seq (plusRE spaceRE)
    (.alt (litsRE "today") (.alt (litsRE "tomorrow")
      (.alt (litsRE "end of day") (litsRE "eod")))))

/-- `EmailAgent._determine_urgency`: first keyword tier wins (table order),
then the punctuation override, then the deadline override, default MEDIUM. -/
def determineUrgency (s : String) : Urgency :=
  match urgencyTable.findSome? (fun uk =>
      if uk.2.any (fun k => containsSub k.data (lcChars s)) then some uk.1 else none) with
  | some u => u
  | none =>
    if reSearchB bangBangRE s.data then .high
    else if reSearchB deadlineRE (lcChars s) then .high
    else .medium

/-! ### PDFAgent (src/agents/pdf_agent.py) -/

def complianceKeywords : List String :=
  ["gdpr", "fda", "sox", "hipaa", "pci", "compliance",
   "regulation", "policy", "audit", "security"]

/-- `BaseAgent.extract_keywords`: the keywords whose lowercase form occurs in
the lowercased text, in table order. -/
def extractKeywords (s : String) (kws : List String) : List String :=
  kws.filter (fun k => containsSub (lcChars k) (lcChars s))

/-- `PDFAgent._determine_document_type`. -/
def determineDocumentType (s : String) : String :=
  if ["invoice", "bill", "payment", "amount due"].any
      (fun k => containsSub k.data (lcChars s)) then "invoice"
  else if ["policy", "regulation", "compliance", "gdpr", "fda"].any
      (fun k => containsSub k.data (lcChars s)) then "policy"
  else if ["contract", "agreement", "terms"].any
      (fun k => containsSub k.data (lcChars s)) then "contract"
  else if ["report", "analysis", "summary"].any
      (fun k => containsSub k.data (lcChars s)) then "report"
  else "document"

/-- `(\d+(?:,\d\x7b3\x7d)*(?:\.\d\x7b2\x7d)?)` — the money-amount capture
group shared by the invoice patterns, as group `n`. -/
def moneyGroupRE (n : Nat) : RE :=
  .group n (.seq (plusRE digitRE)
    (.seq (.star (.seq (.lit ',') (.seq digitRE (.seq digitRE digitRE))))
      (.opt (.seq (.lit '.') (.seq digitRE digitRE)))))

/-- `r'total[:\s]+\$?(...)'` (searched with IGNORECASE: lowercased). -/
def totalPatRE : RE :=
  .seq (litsRE "total") (.seq (plusRE (.cls fun c => c = ':' || isPySpace c))
    (.seq (.opt (.lit '$')) (moneyGroupRE 1)))

/-- `r'amount due[:\s]+\$?(...)'`. -/
def amountDuePatRE : RE :=
  .seq (litsRE "amount due") (.seq (plusRE (.cls fun c => c = ':' || isPySpace c))
    (.seq (.opt (.lit '$')) (moneyGroupRE 1)))

/-- `self.invoice_patterns["total"]`, in order. -/
def invoiceTotalPats : List RE := [totalPatRE, amountDuePatRE]

/-- `match.group(1).replace(',', '')` then `float(...)`. -/
def parseMoney (g : List Char) : Option PyF :=
  pyFloatOfString (String.mk (g.filter (fun c => c ≠ ',')))

/-- The total-extraction loop of `PDFAgent._extract_invoice_data`: for each
pattern in order, `re.search`; on a match, try to parse group 1 and stop,
falling through to the next pattern if parsing fails. -/
def extractInvoiceTotal : List RE → String → Option PyF
  | [], _ => none
  | p :: rest, s =>
    match reSearchCore p none (lcChars s) with
    | none => extractInvoiceTotal rest s
    | some m =>
      match capGet m.2.2.2 1 with
      | none => extractInvoiceTotal rest s
      | some g =>
        match parseMoney g with
        | some f => some f
        | none => extractInvoiceTotal rest s

structure LineItem where
  quantity : ℤ
  description : String
  amount : PyF
deriving DecidableEq, Repr

/-- `r'(\d+)\s+(.+?)\s+\$?(\d+(?:,\d\x7b3\x7d)*(?:\.\d\x7b2\x7d)?)'` — the
generic line-item pattern, applied case-sensitively via `re.findall`. -/
def lineItemRE : RE :=
  .seq (.group 1 (plusRE digitRE))
    (.seq (plusRE spaceRE)
      (.seq (.group 2 (plusLazyRE (.cls fun c => c ≠ '\n')))
        (.seq (plusRE spaceRE)
          (.seq (.opt (.lit '$')) (moneyGroupRE 3)))))

/-- Line-item collection of `PDFAgent._extract_invoice_data` (a tuple whose
values fail `int`/`float` conversion is skipped). -/
def extractLineItems (s : String) : List LineItem :=
  (reFindAllCaps (s.data.length + 1) lineItemRE none s.data).filterMap fun caps => do
    let q ← capGet caps 1
    let d ← capGet caps 2
    let a ← capGet caps 3
    match parseMoney a with
    | some (.fin x) => some ⟨(digitsToNat q : ℤ), String.mk d, .fin x⟩
    | some f => some ⟨(digitsToNat q : ℤ), String.mk d, f⟩
    | none => none

/-- `r'\b\d\x7b3\x7d-\d\x7b2\x7d-\d\x7b4\x7d\b'` (SSN shape). -/
def ssnRE : RE :=
  .seq .wordB (.seq digitRE (.seq digitRE (.seq digitRE (.seq (.lit '-')
    (.seq digitRE (.seq digitRE (.seq (.lit '-')
      (.seq digitRE (.seq digitRE (.seq digitRE (.seq digitRE .wordB)))))))))))

/-- `r'\b\d\x7b4\x7d[- ]?\d\x7b4\x7d[- ]?\d\x7b4\x7d[- ]?\d\x7b4\x7d\b'`
(credit-card shape). -/
def ccRE : RE :=
  let d4 := .seq digitRE (.seq digitRE (.seq digitRE digitRE))
  let sep := RE.opt (.cls fun c => c = '-' || c = ' ')
  .seq .wordB (.seq d4 (.seq sep (.seq d4 (.seq sep (.seq d4 (.seq sep (.seq d4 .wordB)))))))

/-- `r'urgent|asap|immediate|critical'` searched on the lowercased text. -/
def urgentWordsRE : RE :=
  .alt (litsRE "urgent") (.alt (litsRE "asap") (.alt (litsRE "immediate") (litsRE "critical")))

/-- `PDFAgent._check_compliance_flags`, in source order; `total_amount and
total_amount > 10000` uses Python float truthiness. -/
def checkComplianceFlags (s : String) (docType : String) (total : Option PyF) :
    List String :=
  (if docType = "invoice" &&
      (match total with | some t => t.truthy && t.gtNat 10000 | none => false)
   then ["high_value_invoice"] else []) ++
  (let found := extractKeywords s complianceKeywords
   if found.isEmpty then []
   else "compliance_document" :: found.map (fun k => "contains_" ++ String.mk (lcChars k))) ++
  (if containsSub "gdpr".data (lcChars s) then ["gdpr_related"] else []) ++
  (if containsSub "fda".data (lcChars s) then ["fda_related"] else []) ++
  (if containsSub "sox".data (lcChars s) then ["sox_compliance"] else []) ++
  (if reSearchB ssnRE s.data then ["contains_ssn"] else []) ++
  (if reSearchB ccRE s.data then ["contains_credit_card"] else []) ++
  (if reSearchB urgentWordsRE (lcChars s) then ["urgent_document"] else [])

/-- `PDFAgent._recommend_actions`. -/
def pdfRecommendActions (flags : List String) : List String :=
  let acts :=
    (if flags.contains "high_value_invoice"
     then ["require_manager_approval", "flag_financial_review"] else []) ++
    (if flags.contains "compliance_document"
     then ["route_to_compliance_team", "log_regulatory_document"] else []) ++
    (if flags.contains "gdpr_related"
     then ["notify_data_protection_officer", "ensure_gdpr_compliance"] else []) ++
    (if flags.contains "fda_related"
     then ["route_to_regulatory_affairs", "maintain_fda_audit_trail"] else []) ++
    (if flags.contains "contains_ssn" ∨ flags.contains "contains_credit_card"
     then ["encrypt_and_secure", "limit_access_permissions"] else []) ++
    (if flags.contains "urgent_document"
     then ["prioritize_processing", "notify_relevant_teams"] else [])
  if acts.isEmpty then ["standard_document_processing", "archive_after_processing"] else acts

/-- The claim-relevant fields of the `PDFAgent.process` result (text echo,
general extracted fields and metadata are not modelled; no verified property
mentions them). -/
structure PdfResult where
  documentType : String
  lineItems : List LineItem
  totalAmount : Option PyF
  flags : List String
  recommendedActions : List String
deriving DecidableEq, Repr

/-- `PDFAgent.process` on extracted text. -/
def pdfProcess (s : String) : PdfResult :=
  let dt := determineDocumentType s
  let li := if dt = "invoice" then extractLineItems s else []
  let total := if dt = "invoice" then extractInvoiceTotal invoiceTotalPats s else none
  let flags := checkComplianceFlags s dt total
  { documentType := dt
    lineItems := li
    totalAmount := total
    flags := flags
    recommendedActions := pdfRecommendActions flags }

/-! ### SharedMemoryStore (src/memory/shared_memory.py)

The Redis instance is modelled as one hash table per entry id together with
the `processing_queue` Redis list: `lpush` prepends on the left and
`lrange 0 -1` returns the whole list left to right. -/

structure MemEntry where
  id : String
  status : String
deriving DecidableEq, Repr

structure Store where
  entries : List (String × String)
  queue : List String
deriving DecidableEq, Repr

def emptyStore : Store := ⟨[], []⟩

/-- `SharedMemoryStore.store_entry`: `hset` of the serialized entry, then
`lpush("processing_queue", entry.id)`. -/
def storeEntry (st : Store) (e : MemEntry) : Store :=
  { entries := pyDictInsert st.entries e.id e.status
    queue := e.id :: st.queue }

/-- `SharedMemoryStore.get_processing_queue` = `lrange("processing_queue",
0, -1)`. -/
def getProcessingQueue (st : Store) : List String := st.queue

/-! ### ActionRouter (src/routers/action_router.py)

A handler outcome is the returned Python dict, as a field association list.
`Except.error` in a handler slot models a handler raising; the concrete
handler table below never raises.  The memory side effect
`add_action_triggered` is modelled by the `trace` list (it is itself
non-raising: its internals catch their own errors). -/

abbrev Outcome := List (String × String)

/-- `result.get('status', 'completed')`. -/
def outStatus (o : Outcome) : String := (alookup o "status").getD "completed"

structure RouterSt where
  results : List (String × Outcome)
  trace : List String
deriving DecidableEq, Repr

/-- One iteration of the `route_actions` loop: registered handlers run
inside a `try` whose `except` records `\x7bstatus: error, message\x7d`;
unregistered actions record `\x7bstatus: unknown_action, ...\x7d`. -/
def routeStep (handlers : String → Option (Except String Outcome))
    (st : RouterSt) (a : String) : RouterSt :=
  match handlers a with
  | some (.ok r) =>
    { results := pyDictInsert st.results a r
      trace := st.trace ++ [a ++ ": " ++ outStatus r] }
  | some (.error m) =>
    { results := pyDictInsert st.results a [("status", "error"), ("message", m)]
      trace := st.trace }
  | none =>
    { results := pyDictInsert st.results a
        [("status", "unknown_action"), ("message", "No handler for action: " ++ a)]
      trace := st.trace }

/-- `ActionRouter.route_actions`. -/
def routeActions (handlers : String → Option (Except String Outcome))
    (actions : List String) : RouterSt :=
  actions.foldl (routeStep handlers) ⟨[], []⟩

/-- The outcome the router records for one action: the handler's result if
registered and successful, an error record if it raises, an unknown-action
record otherwise. -/
def outcomeFor (handlers : String → Option (Except String Outcome)) (a : String) :
    Outcome :=
  match handlers a with
  | some (.ok r) => r
  | some (.error m) => [("status", "error"), ("message", m)]
  | none => [("status", "unknown_action"), ("message", "No handler for action: " ++ a)]

/-- The trace line `add_action_triggered` records for one action, when a
registered handler returns. -/
def traceFor (handlers : String → Option (Except String Outcome)) (a : String) :
    Option String :=
  match handlers a with
  | some (.ok r) => some (a ++ ": " ++ outStatus r)
  | _ => none

/-- The concrete handler table of `ActionRouter.__init__`, specialised to an
entry id (every handler result embeds `entry_id[:8]`); the simulated
external calls always return their mock responses, so no concrete handler
raises. -/
def actionHandlers (entryId : String) (a : String) : Option (Except String Outcome) :=
  let t8 := takeL entryId 8
  match a with
  | "escalate_to_manager" => some (.ok
      [("status", "escalated"), ("ticket_id", "TKT-" ++ t8),
       ("assigned_to", "manager@company.com"), ("message", "Issue escalated to management")])
  | "create_priority_ticket" => some (.ok
      [("status", "ticket_created"), ("ticket_id", "TKT-" ++ t8),
       ("priority", "high"), ("message", "Priority ticket created")])
  | "create_high_priority_ticket" => some (.ok
      [("status", "ticket_created"), ("ticket_id", "TKT-" ++ t8),
       ("priority", "high"), ("message", "Priority ticket created")])
  | "notify_team_lead" => some (.ok
      [("status", "notified"), ("notification_id", "NOT-" ++ t8),
       ("recipient", "teamlead@company.com"),
       ("message", "Team lead notified of high priority issue")])
  | "standard_response" => some (.ok
      [("status", "response_sent"), ("response_id", "RSP-" ++ t8),
       ("message", "Standard response sent to customer")])
  | "log_and_track" => some (.ok
      [("status", "logged"), ("tracking_id", "TRK-" ++ t8),
       ("message", "Issue logged and being tracked")])
  | "log_schema_violation" => some (.ok
      [("status", "logged"), ("violation_id", "SCH-" ++ t8),
       ("message", "Schema violation logged for review")])
  | "notify_integration_team" => some (.ok
      [("status", "notified"), ("notification_id", "INT-" ++ t8),
       ("recipient", "integration@company.com"),
       ("message", "Integration team notified of data issues")])
  | "flag_financial_review" => some (.ok
      [("status", "flagged"), ("review_id", "REV-" ++ t8),
       ("message", "Flagged for financial review")])
  | "log_data_quality_issue" => some (.ok
      [("status", "logged"), ("issue_id", "DQ-" ++ t8),
       ("message", "Data quality issue logged")])
  | "quarantine_for_review" => some (.ok
      [("status", "quarantined"), ("quarantine_id", "QUA-" ++ t8),
       ("message", "Data quarantined for manual review")])
  | "require_manager_approval" => some (.ok
      [("status", "pending_approval"), ("approval_id", "APP-" ++ t8),
       ("approver", "manager@company.com"), ("message", "Awaiting manager approval")])
  | "route_to_compliance_team" => some (.ok
      [("status", "routed"), ("routing_id", "COM-" ++ t8),
       ("recipient", "compliance@company.com"), ("message", "Routed to compliance team")])
  | "notify_data_protection_officer" => some (.ok
      [("status", "notified"), ("notification_id", "DPO-" ++ t8),
       ("recipient", "dpo@company.com"), ("message", "Data protection officer notified")])
  | "route_to_regulatory_affairs" => some (.ok
      [("status", "routed"), ("routing_id", "REG-" ++ t8),
       ("recipient", "regulatory@company.com"), ("message", "Routed to regulatory affairs")])
  | "encrypt_and_secure" => some (.ok
      [("status", "secured"), ("security_id", "SEC-" ++ t8),
       ("message", "Document encrypted and secured")])
  | "prioritize_processing" => some (.ok
      [("status", "prioritized"), ("priority_id", "PRI-" ++ t8),
       ("message", "Document processing prioritized")])
  | "log_error" => some (.ok
      [("status", "logged"), ("error_id", "ERR-" ++ t8),
       ("message", "Error logged for investigation")])
  | "alert_admin" => some (.ok
      [("status", "alerted"), ("alert_id", "ADM-" ++ t8),
       ("recipient", "admin@company.com"), ("message", "Administrator alerted")])
  | "process_normally" => some (.ok
      [("status", "processing"), ("process_id", "NOR-" ++ t8),
       ("message", "Processing normally")])
  | "standard_processing" => some (.ok
      [("status", "processing"), ("process_id", "NOR-" ++ t8),
       ("message", "Processing normally")])
  | _ => none

/-! ### Claim-side auxiliary definitions -/

/-- "Some keyword of the tier occurs in the lowercased text" — the claim's
reading of one urgency tier. -/
def kwHit (s : String) (kws : List String) : Bool :=
  kws.any (fun k => containsSub k.data (lcChars s))

/-- The spec's description of invoice-total extraction: the first pattern in
the ordered list that matches and whose captured, comma-stripped value
parses as a float. -/
def invoiceTotalSpec (s : String) : Option PyF :=
  invoiceTotalPats.findSome? fun p =>
    (reSearchCore p none (lcChars s)).bind fun m => (capGet m.2.2.2 1).bind parseMoney

/-- The invoice text of the spec's PDF example. -/
def invoiceSampleText : String := "Invoice\nTotal: $12,500.00"

/-- A well-formed payment payload carrying an out-of-range numeric
timestamp. -/
def timestampPayloadText : String :=
  "\x7b\"transaction_id\":\"t1\",\"amount\":50,\"currency\":\"USD\",\"status\":\"ok\",\"timestamp\":-5\x7d"

/-- Anomaly list of a successful `jsonProcess` run (empty otherwise). -/
def jsonResultAnomalies (s : String) : List String :=
  ((jsonProcess s).toOption.map (fun r => r.anomalies)).getD []

/-- Recommended-action list of a successful `jsonProcess` run. -/
def jsonResultActions (s : String) : List String :=
  ((jsonProcess s).toOption.map (fun r => r.recommendedActions)).getD []

/-! ## Theorems -/

/-! ### Store lemmas -/

theorem store_foldl_queue (es : List MemEntry) :
    ∀ st : Store, (es.foldl storeEntry st).queue = (es.map MemEntry.id).reverse ++ st.queue := by
  induction es with
  | nil => intro st; simp
  | cons e rest ih =>
    intro st
    rw [List.foldl_cons, ih]
    simp [storeEntry]

/-- C6 (counterexample): storing entry "a" and then entry "b" from an empty
store makes `get_processing_queue` return `["b", "a"]` — the most recent id
first — so the first id returned is *not* the id of the earliest-stored
entry, contradicting the claimed FIFO order. -/
theorem claim6_queue_fifo_counterexample :
    getProcessingQueue (storeEntry (storeEntry emptyStore ⟨"a", "processing"⟩)
        ⟨"b", "processing"⟩) = ["b", "a"] ∧
    (getProcessingQueue (storeEntry (storeEntry emptyStore ⟨"a", "processing"⟩)
        ⟨"b", "processing"⟩)).head? ≠ some "a" := by
  constructor
  · rfl
  · decide

/-- C6 (amended): for every sequence of `store_entry` calls starting from an
empty store, `get_processing_queue` returns the ids in LIFO order — the
reverse of insertion order, the most recently stored id first — with one
occurrence per enqueue. -/
theorem claim6_queue_lifo (es : List MemEntry) :
    getProcessingQueue (es.foldl storeEntry emptyStore) = (es.map MemEntry.id).reverse := by
  have h := store_foldl_queue es emptyStore
  simpa [getProcessingQueue, emptyStore] using h

/-! ### JSON agent: concrete runs -/

/-- C9: the well-formed payment payload of the spec classifies as webhook
type "payment", validates with no errors, and yields no anomalies (and hence
the single action `process_normally`). -/
theorem claim9_payment_roundtrip :
    jsonProcess "\x7b\"transaction_id\":\"t1\",\"amount\":50,\"currency\":\"USD\",\"status\":\"ok\"\x7d" =
      .ok { agent := "JSONAgent"
            webhookType := "payment"
            schemaValid := true
            validationErrors := []
            anomalies := []
            recommendedActions := ["process_normally"]
            parsedSuccessfully := true } := by
  rfl

/-- C1: on every input that fails to parse as JSON, `JSONAgent.process`
returns the terminal error-shaped result (webhook type "invalid", schema
invalid, anomaly `malformed_json`, actions `[log_error, alert_admin]`)
without raising.  But the never-raises half of the claim fails on the code:
the valid JSON input "5" parses to a non-dict payload, and
`_detect_anomalies` then evaluates `"amount" in 5`, an uncaught
`TypeError`. -/
theorem claim1_malformed_path_and_nondict_raise :
    (∀ s : String, jsonLoads s = none → jsonProcess s = .ok invalidJsonResult) ∧
    jsonProcess "5" = .error "TypeError" := by
  constructor
  · intro s h
    simp [jsonProcess, h]
  · rfl

/-- C1 (witness): the spec's own malformed input takes the caught branch. -/
theorem claim1_witness :
    jsonLoads "\x7bnot json" = none ∧ jsonProcess "\x7bnot json" = .ok invalidJsonResult :=
  ⟨rfl, claim1_malformed_path_and_nondict_raise.1 "\x7bnot json" rfl⟩

/-! ### Recommended-action membership -/

theorem exists_eq_or_iff (l : List String) (a b : String) :
    (∃ x ∈ l, x = a ∨ x = b) ↔ a ∈ l ∨ b ∈ l := by
  constructor
  · rintro ⟨x, hx, h | h⟩
    · exact Or.inl (h ▸ hx)
    · exact Or.inr (h ▸ hx)
  · rintro (h | h)
    · exact ⟨a, h, Or.inl rfl⟩
    · exact ⟨b, h, Or.inr rfl⟩

theorem any_two_mem (l : List String) (a b : String) :
    l.any (fun x => x = a ∨ x = b) = true ↔ a ∈ l ∨ b ∈ l := by
  simp only [List.any_eq_true, decide_eq_true_eq]
  exact exists_eq_or_iff l a b

theorem recommendActions_mem (anoms : List String) (valid : Bool) :
    ("log_schema_violation" ∈ recommendActions anoms valid ↔ valid = false) ∧
    ("notify_integration_team" ∈ recommendActions anoms valid ↔ valid = false) ∧
    ("flag_financial_review" ∈ recommendActions anoms valid ↔
      ("negative_amount" ∈ anoms ∨ "unusually_high_amount" ∈ anoms)) ∧
    ("log_data_quality_issue" ∈ recommendActions anoms valid ↔
      "malformed_timestamp" ∈ anoms) ∧
    ("quarantine_for_review" ∈ recommendActions anoms valid ↔ 2 < anoms.length) ∧
    ("process_normally" ∈ recommendActions anoms valid ↔ anoms = []) := by
  unfold recommendActions
  by_cases he : anoms.isEmpty
  · have hnil : anoms = [] := List.isEmpty_iff.mp he
    subst hnil
    cases valid <;> simp
  · have hne : anoms ≠ [] := by
      intro h; rw [h] at he; simp at he
    by_cases hf : anoms.any (fun a => a = "negative_amount" ∨ a = "unusually_high_amount") <;>
      by_cases hm : anoms.contains "malformed_timestamp" <;>
        by_cases hq : 2 < anoms.length <;>
          cases valid <;>
            simp_all [any_two_mem, List.contains_iff_exists_mem_beq, hne]
    all_goals
      first
      | (obtain ⟨x, hx, h | h⟩ := hf
         · exact Or.inl (h ▸ hx)
         · exact Or.inr (h ▸ hx))
      | exact exists_eq_or_iff anoms "negative_amount" "unusually_high_amount"

/-- C5 (counterexample): a well-formed payment payload with the out-of-range
numeric timestamp `-5` is detected with exactly the timestamp anomaly
`invalid_timestamp_range`, yet the recommended actions are empty: they do
not contain `log_data_quality_issue` (and are not `[process_normally]`
either), refuting the claimed iff between a detected timestamp anomaly
(unparsable *or out-of-range*) and the data-quality action. -/
theorem claim5_counterexample :
    ¬ (("log_data_quality_issue" ∈ jsonResultActions timestampPayloadText) ↔
        ("malformed_timestamp" ∈ jsonResultAnomalies timestampPayloadText ∨
         "invalid_timestamp_range" ∈ jsonResultAnomalies timestampPayloadText)) ∧
    jsonResultAnomalies timestampPayloadText = ["invalid_timestamp_range"] ∧
    jsonResultActions timestampPayloadText = [] := by
  refine ⟨?_, rfl, rfl⟩
  intro h
  have : ("invalid_timestamp_range" : String) ∈ jsonResultAnomalies timestampPayloadText := by
    rw [(rfl : jsonResultAnomalies timestampPayloadText = ["invalid_timestamp_range"])]
    exact List.mem_singleton.mpr rfl
  have h2 := h.mpr (Or.inr this)
  rw [(rfl : jsonResultActions timestampPayloadText = [])] at h2
  exact (List.not_mem_nil _) h2

/-- C5 (amended): for every successfully parsed payload on which schema
validation and anomaly detection complete (in particular every JSON
object), the recommended actions satisfy: `log_schema_violation` and
`notify_integration_team` are present iff validation failed;
`flag_financial_review` iff a financial anomaly was detected;
`log_data_quality_issue` iff the *unparsable-timestamp* anomaly
`malformed_timestamp` was detected (an out-of-range timestamp does not
trigger it); `quarantine_for_review` iff more than two anomalies; and
`process_normally` is present iff no anomaly was detected (even when the
schema is invalid). -/
theorem claim5_actions_additive (p : JVal) (valid : Bool) (errs anoms : List String)
    (_hv : validateSchema p (detectWebhookType p) = .ok (valid, errs))
    (_ha : detectAnomalies p (detectWebhookType p) = .ok anoms) :
    ("log_schema_violation" ∈ recommendActions anoms valid ↔ valid = false) ∧
    ("notify_integration_team" ∈ recommendActions anoms valid ↔ valid = false) ∧
    ("flag_financial_review" ∈ recommendActions anoms valid ↔
      ("negative_amount" ∈ anoms ∨ "unusually_high_amount" ∈ anoms)) ∧
    ("log_data_quality_issue" ∈ recommendActions anoms valid ↔
      "malformed_timestamp" ∈ anoms) ∧
    ("quarantine_for_review" ∈ recommendActions anoms valid ↔ 2 < anoms.length) ∧
    ("process_normally" ∈ recommendActions anoms valid ↔ anoms = []) :=
  recommendActions_mem anoms valid

/-- C5 (witness): the amended theorem applied to the spec's well-formed
payment payload, on which validation succeeds and no anomaly is found. -/
theorem claim5_witness :
    "process_normally" ∈ recommendActions [] true ↔ ([] : List String) = [] :=
  (claim5_actions_additive
    (.obj [("transaction_id", .str "t1"), ("amount", .num (.int 50)),
           ("currency", .str "USD"), ("status", .str "ok")])
    true [] [] rfl rfl).2.2.2.2.2

/-! ### Dict and router lemmas -/

theorem alookup_append {α : Type} (d e : List (String × α)) (k : String) :
    alookup (d ++ e) k =
      (match alookup d k with | some v => some v | none => alookup e k) := by
  induction d with
  | nil => simp [alookup]
  | cons kv rest ih =>
    by_cases h : kv.1 = k <;> simp [alookup, h, ih]

theorem alookup_eq_find {α : Type} (d : List (String × α)) (k : String) :
    alookup d k = (d.find? (fun kv => kv.1 = k)).map Prod.snd := by
  induction d with
  | nil => simp [alookup]
  | cons kv rest ih =>
    by_cases h : kv.1 = k <;> simp [alookup, List.find?, h, ih]

theorem alookup_map_replace_self {α : Type} (d : List (String × α)) (k : String) (v : α) :
    alookup (d.map (fun kv => if kv.1 = k then (k, v) else kv)) k =
      (alookup d k).map (fun _ => v) := by
  induction d with
  | nil => simp [alookup]
  | cons kv rest ih =>
    by_cases h : kv.1 = k <;> simp [alookup, h, ih]

theorem alookup_map_replace_other {α : Type} (d : List (String × α)) (k k' : String)
    (v : α) (hne : k' ≠ k) :
    alookup (d.map (fun kv => if kv.1 = k then (k, v) else kv)) k' = alookup d k' := by
  induction d with
  | nil => simp [alookup]
  | cons kv rest ih =>
    by_cases h : kv.1 = k
    · have h2 : ¬ (k = k') := fun hh => hne hh.symm
      have h3 : ¬ (kv.1 = k') := by rw [h]; exact h2
      simp [alookup, h, h2, h3, ih]
    · by_cases h4 : kv.1 = k' <;> simp [alookup, h, h4, hne, ih]

theorem alookup_pyDictInsert_self {α : Type} (d : List (String × α)) (k : String) (v : α) :
    alookup (pyDictInsert d k v) k = some v := by
  unfold pyDictInsert
  by_cases hf : (d.find? (fun kv => kv.1 = k)).isSome
  · rw [if_pos hf, alookup_map_replace_self]
    rw [alookup_eq_find]
    obtain ⟨x, hx⟩ := Option.isSome_iff_exists.mp hf
    simp [hx]
  · rw [if_neg hf, alookup_append]
    have : alookup d k = none := by
      rw [alookup_eq_find]
      rw [Option.not_isSome_iff_eq_none] at hf
      simp [hf]
    simp [this, alookup]

theorem alookup_pyDictInsert_other {α : Type} (d : List (String × α)) (k k' : String)
    (v : α) (hne : k' ≠ k) :
    alookup (pyDictInsert d k v) k' = alookup d k' := by
  unfold pyDictInsert
  by_cases hf : (d.find? (fun kv => kv.1 = k)).isSome
  · rw [if_pos hf, alookup_map_replace_other _ _ _ _ hne]
  · rw [if_neg hf, alookup_append]
    cases h : alookup d k' with
    | some v2 => simp
    | none =>
      simp only [alookup]
      rw [if_neg (fun hh => hne hh.symm)]

theorem alookup_isSome_iff_mem {α : Type} (d : List (String × α)) (k : String) :
    (alookup d k).isSome ↔ k ∈ d.map Prod.fst := by
  induction d with
  | nil => simp [alookup]
  | cons kv rest ih =>
    simp only [alookup, List.map_cons, List.mem_cons]
    by_cases h : kv.1 = k
    · simp [h]
    · have hns : ¬ (k = kv.1) := fun hh => h hh.symm
      simp [h, hns, ih]

theorem keys_map_replace {α : Type} (d : List (String × α)) (k : String) (v : α) :
    (d.map (fun kv => if kv.1 = k then (k, v) else kv)).map Prod.fst = d.map Prod.fst := by
  induction d with
  | nil => rfl
  | cons kv rest ih =>
    by_cases h : kv.1 = k <;> simp [h, ih]

theorem keys_pyDictInsert_nodup {α : Type} (d : List (String × α)) (k : String) (v : α)
    (h : (d.map Prod.fst).Nodup) : ((pyDictInsert d k v).map Prod.fst).Nodup := by
  unfold pyDictInsert
  by_cases hf : (d.find? (fun kv => kv.1 = k)).isSome
  · rw [if_pos hf, keys_map_replace]
    exact h
  · rw [if_neg hf]
    have hmem : k ∉ d.map Prod.fst := by
      rw [← alookup_isSome_iff_mem]
      rw [alookup_eq_find]
      rw [Option.not_isSome_iff_eq_none] at hf
      simp [hf]
    simp [List.nodup_append, h, hmem]

theorem routeStep_results (handlers : String → Option (Except String Outcome))
    (st : RouterSt) (a : String) :
    (routeStep handlers st a).results = pyDictInsert st.results a (outcomeFor handlers a) := by
  unfold routeStep outcomeFor
  cases h : handlers a with
  | none => rfl
  | some x => cases x <;> rfl

theorem routeStep_trace (handlers : String → Option (Except String Outcome))
    (st : RouterSt) (a : String) :
    (routeStep handlers st a).trace = st.trace ++ (traceFor handlers a).toList := by
  unfold routeStep traceFor
  cases h : handlers a with
  | none => simp
  | some x => cases x <;> simp

theorem route_foldl_alookup (handlers : String → Option (Except String Outcome))
    (a : String) :
    ∀ (actions : List String) (st : RouterSt),
      alookup (actions.foldl (routeStep handlers) st).results a =
        (if a ∈ actions then some (outcomeFor handlers a) else alookup st.results a) := by
  intro actions
  induction actions with
  | nil => intro st; simp
  | cons b rest ih =>
    intro st
    rw [List.foldl_cons, ih]
    by_cases hab : a = b
    · subst hab
      by_cases har : a ∈ rest
      · simp [har]
      · simp [har, routeStep_results, alookup_pyDictInsert_self]
    · rw [routeStep_results, alookup_pyDictInsert_other _ _ _ _ hab]
      simp only [List.mem_cons, hab, false_or]

theorem route_foldl_trace (handlers : String → Option (Except String Outcome)) :
    ∀ (actions : List String) (st : RouterSt),
      (actions.foldl (routeStep handlers) st).trace =
        st.trace ++ actions.filterMap (traceFor handlers) := by
  intro actions
  induction actions with
  | nil => intro st; simp
  | cons b rest ih =>
    intro st
    rw [List.foldl_cons, ih, routeStep_trace, List.filterMap_cons]
    cases h : traceFor handlers b <;> simp [h]

theorem route_foldl_nodup (handlers : String → Option (Except String Outcome)) :
    ∀ (actions : List String) (st : RouterSt),
      (st.results.map Prod.fst).Nodup →
      ((actions.foldl (routeStep handlers) st).results.map Prod.fst).Nodup := by
  intro actions
  induction actions with
  | nil => intro st h; simpa using h
  | cons b rest ih =>
    intro st h
    rw [List.foldl_cons]
    exact ih _ (by rw [routeStep_results]; exact keys_pyDictInsert_nodup _ _ _ h)

/-- C7: `route_actions` yields one recorded outcome per listed action — the
handler's result for a registered, successfully returning handler; a
`status: error` record when the handler raises; a `status: unknown_action`
record when no handler is registered — and a failure on one action never
prevents the recording of any other action in the batch (the
characterisation holds for every member of the list, whatever the other
handlers do).  Totality of `routeActions` is the never-raises half. -/
theorem claim7_route_outcomes (handlers : String → Option (Except String Outcome))
    (actions : List String) (a : String) (h : a ∈ actions) :
    alookup (routeActions handlers actions).results a = some (outcomeFor handlers a) := by
  unfold routeActions
  rw [route_foldl_alookup, if_pos h]

/-- C7 (witness): routing the unregistered action of the spec's example
records `status: unknown_action` for it without throwing. -/
theorem claim7_witness :
    alookup (routeActions (actionHandlers "e1") ["nonexistent_action"]).results
        "nonexistent_action" =
      some [("status", "unknown_action"),
            ("message", "No handler for action: nonexistent_action")] := by
  rw [claim7_route_outcomes (actionHandlers "e1") ["nonexistent_action"]
    "nonexistent_action" (List.mem_singleton.mpr rfl)]
  rfl

/-- C10: the result mapping of `route_actions` is keyed by the action
strings: its keys are exactly the distinct members of the input (no
duplicate keys), a duplicated action id keeps a single entry holding the
recorded outcome, and the memory trace gains one line per *occurrence* of a
registered returning handler, so the handler runs once per occurrence. -/
theorem claim10_route_dict_keys (handlers : String → Option (Except String Outcome))
    (actions : List String) :
    (((routeActions handlers actions).results.map Prod.fst).Nodup) ∧
    (∀ a, (alookup (routeActions handlers actions).results a).isSome ↔ a ∈ actions) ∧
    (∀ a, a ∈ actions →
      alookup (routeActions handlers actions).results a = some (outcomeFor handlers a)) ∧
    (routeActions handlers actions).trace = actions.filterMap (traceFor handlers) := by
  refine ⟨?_, ?_, ?_, ?_⟩
  · exact route_foldl_nodup handlers actions ⟨[], []⟩ (by simp)
  · intro a
    unfold routeActions
    rw [route_foldl_alookup]
    by_cases h : a ∈ actions <;> simp [h, alookup]
  · intro a h
    unfold routeActions
    rw [route_foldl_alookup, if_pos h]
  · unfold routeActions
    rw [route_foldl_trace]
    rfl

/-- C10 (witness): the duplicated registered action `log_error` produces a
single result entry with its outcome, while its handler runs (and is
traced) once per occurrence. -/
theorem claim10_witness :
    alookup (routeActions (actionHandlers "e1") ["log_error", "log_error"]).results
        "log_error" =
      some [("status", "logged"), ("error_id", "ERR-e1"),
            ("message", "Error logged for investigation")] ∧
    (routeActions (actionHandlers "e1") ["log_error", "log_error"]).trace =
      ["log_error: logged", "log_error: logged"] ∧
    (routeActions (actionHandlers "e1") ["log_error", "log_error"]).results.map Prod.fst =
      ["log_error"] := by
  have h := claim10_route_dict_keys (actionHandlers "e1") ["log_error", "log_error"]
  refine ⟨?_, ?_, rfl⟩
  · rw [h.2.2.1 "log_error" (by simp)]
    rfl
  · rw [h.2.2.2]
    rfl

/-! ### Classifier lemmas -/

theorem foldl_add_bool_count {α : Type} (f : α → Bool) :
    ∀ (l : List α) (n : Nat),
      l.foldl (fun acc x => acc + (if f x then 1 else 0)) n = n + l.countP f
  | [], n => by simp
  | x :: xs, n => by
    rw [List.foldl_cons, foldl_add_bool_count f xs, List.countP_cons]
    cases h : f x <;> simp [h] <;> omega

theorem frac_bounds (a l : Nat) (h : a ≤ l) :
    (0 : ℚ) ≤ (a : ℚ) / ((max l 1 : Nat) : ℚ) ∧ (a : ℚ) / ((max l 1 : Nat) : ℚ) ≤ 1 := by
  have hm : (1 : ℚ) ≤ ((max l 1 : Nat) : ℚ) := by
    exact_mod_cast Nat.le_max_right l 1
  constructor
  · apply div_nonneg (by positivity) (by linarith)
  · rw [div_le_one (by linarith)]
    have h1 : (a : ℚ) ≤ (l : ℚ) := by exact_mod_cast h
    have h2 : (l : ℚ) ≤ ((max l 1 : Nat) : ℚ) := by exact_mod_cast Nat.le_max_left l 1
    linarith

/-- C2: the classifier's confidence equals, exactly, half the sum of the
matched-pattern fraction of the *chosen* format and the matched-keyword
fraction of the *chosen* intent (each denominator floored at one), and is
therefore always within `[0, 1]`. -/
theorem claim2_confidence_formula (s : String) :
    calculateConfidence s (detectFormat s) (detectIntent s) =
      (((formatPats (detectFormat s)).countP (fun p => patSearch p (lcChars s)) : ℚ) /
          ((max (formatPats (detectFormat s)).length 1 : Nat) : ℚ) +
        ((intentKws (detectIntent s)).countP
            (fun k => containsSub (lcChars k) (lcChars s)) : ℚ) /
          ((max (intentKws (detectIntent s)).length 1 : Nat) : ℚ)) / 2 ∧
    0 ≤ calculateConfidence s (detectFormat s) (detectIntent s) ∧
    calculateConfidence s (detectFormat s) (detectIntent s) ≤ 1 := by
  have heq : calculateConfidence s (detectFormat s) (detectIntent s) =
      (((formatPats (detectFormat s)).countP (fun p => patSearch p (lcChars s)) : ℚ) /
          ((max (formatPats (detectFormat s)).length 1 : Nat) : ℚ) +
        ((intentKws (detectIntent s)).countP
            (fun k => containsSub (lcChars k) (lcChars s)) : ℚ) /
          ((max (intentKws (detectIntent s)).length 1 : Nat) : ℚ)) / 2 := by
    unfold calculateConfidence
    rw [foldl_add_bool_count, foldl_add_bool_count]
    norm_num
  refine ⟨heq, ?_, ?_⟩
  · rw [heq]
    have h1 := frac_bounds ((formatPats (detectFormat s)).countP
        (fun p => patSearch p (lcChars s))) (formatPats (detectFormat s)).length
      (List.countP_le_length _)
    have h2 := frac_bounds ((intentKws (detectIntent s)).countP
        (fun k => containsSub (lcChars k) (lcChars s))) (intentKws (detectIntent s)).length
      (List.countP_le_length _)
    linarith [h1.1, h2.1]
  · rw [heq]
    have h1 := frac_bounds ((formatPats (detectFormat s)).countP
        (fun p => patSearch p (lcChars s))) (formatPats (detectFormat s)).length
      (List.countP_le_length _)
    have h2 := frac_bounds ((intentKws (detectIntent s)).countP
        (fun k => containsSub (lcChars k) (lcChars s))) (intentKws (detectIntent s)).length
      (List.countP_le_length _)
    linarith [h1.2, h2.2]

/-- C3: format detection picks the format with the highest total
`findall`-count over its pattern table, provided that total is nonzero, with
ties resolved in declaration order EMAIL, JSON, PDF; when every total is
zero it falls back to: JSON if the stripped input starts with a brace, else
EMAIL if an `@` occurs together with a lowercase `subject:` or `from:`
marker, else PDF. -/
theorem claim3_format_detection (s : String) :
    detectFormat s =
      (if formatScore (formatPats .email) (lcChars s) ≥ formatScore (formatPats .json) (lcChars s) ∧
          formatScore (formatPats .email) (lcChars s) ≥ formatScore (formatPats .pdf) (lcChars s) ∧
          0 < formatScore (formatPats .email) (lcChars s) then .email
       else if formatScore (formatPats .json) (lcChars s) > formatScore (formatPats .email) (lcChars s) ∧
          formatScore (formatPats .json) (lcChars s) ≥ formatScore (formatPats .pdf) (lcChars s) ∧
          0 < formatScore (formatPats .json) (lcChars s) then .json
       else if formatScore (formatPats .pdf) (lcChars s) > formatScore (formatPats .email) (lcChars s) ∧
          formatScore (formatPats .pdf) (lcChars s) > formatScore (formatPats .json) (lcChars s) ∧
          0 < formatScore (formatPats .pdf) (lcChars s) then .pdf
       else if (pyStripChars s).head? = some '{' then .json
       else if s.data.contains '@' &&
           (containsSub (lcChars "subject:") (lcChars s) ||
            containsSub (lcChars "from:") (lcChars s)) then .email
       else .pdf) := by
  unfold detectFormat formatScores formatTable maxByVal
  simp only [List.map_cons, List.map_nil, List.foldl_cons, List.foldl_nil]
  set e := formatScore (formatPats .email) (lcChars s) with he
  set j := formatScore (formatPats .json) (lcChars s) with hj
  set p := formatScore (formatPats .pdf) (lcChars s) with hp
  by_cases h1 : j > e
  · by_cases h2 : p > j
    · simp only [h1, if_pos, h2]
      split_ifs with c1 c2 c3 <;> first | rfl | (simp_all; try omega)
    · simp only [if_pos h1, if_neg h2]
      split_ifs with c1 c2 c3 <;> first | rfl | (simp_all; try omega)
  · by_cases h2 : p > e
    · simp only [if_neg h1, if_pos h2]
      split_ifs with c1 c2 c3 <;> first | rfl | (simp_all; try omega)
    · simp only [if_neg h1, if_neg h2]
      split_ifs with c1 c2 c3 <;> first | rfl | (simp_all; try omega)

/-- C4: email urgency is decided by the keyword table in CRITICAL, HIGH,
MEDIUM, LOW declaration order — the first tier with a matching keyword wins —
and when no keyword matches, either structural override (two consecutive
exclamation marks, or a `by today/tomorrow/end of day/eod` deadline phrase)
forces HIGH, with MEDIUM as the final default; in particular a body
containing `!!` and no urgency keyword yields HIGH. -/
theorem claim4_urgency_tiers :
    (∀ s : String,
      determineUrgency s =
        (if kwHit s ["critical", "emergency", "urgent", "asap", "immediate"] then .critical
         else if kwHit s ["important", "priority", "soon", "quickly", "expedite"] then .high
         else if kwHit s ["please", "when possible", "at your convenience"] then .medium
         else if kwHit s ["whenever", "no rush", "low priority"] then .low
         else if reSearchB bangBangRE s.data || reSearchB deadlineRE (lcChars s) then .high
         else .medium)) ∧
    determineUrgency "Meeting moved!!" = .high := by
  constructor
  · intro s
    unfold determineUrgency urgencyTable kwHit
    by_cases h1 : (["critical", "emergency", "urgent", "asap", "immediate"] : List String).any
        (fun k => containsSub k.data (lcChars s)) <;>
      by_cases h2 : (["important", "priority", "soon", "quickly", "expedite"] : List String).any
          (fun k => containsSub k.data (lcChars s)) <;>
        by_cases h3 : (["please", "when possible", "at your convenience"] : List String).any
            (fun k => containsSub k.data (lcChars s)) <;>
          by_cases h4 : (["whenever", "no rush", "low priority"] : List String).any
              (fun k => containsSub k.data (lcChars s)) <;>
            simp only [List.findSome?_cons, List.findSome?_nil, h1, h2, h3, h4,
              if_true, if_false, ite_true, ite_false] <;>
              by_cases h5 : reSearchB bangBangRE s.data <;>
                by_cases h6 : reSearchB deadlineRE (lcChars s) <;>
                  simp [h5, h6]
  · rfl

/-! ### PDF agent lemmas -/

theorem extractInvoiceTotal_eq_findSome (s : String) :
    ∀ ps : List RE,
      extractInvoiceTotal ps s = ps.findSome? (fun p =>
        (reSearchCore p none (lcChars s)).bind fun m => (capGet m.2.2.2 1).bind parseMoney) := by
  intro ps
  induction ps with
  | nil => rfl
  | cons p rest ih =>
    rw [List.findSome?_cons]
    unfold extractInvoiceTotal
    cases hs : reSearchCore p none (lcChars s) with
    | none => simp [ih]
    | some m =>
      cases hg : capGet m.2.2.2 1 with
      | none => simp [hg, ih]
      | some g =>
        cases hp : parseMoney g with
        | none => simp [hg, hp, ih]
        | some f => simp [hg, hp]

/-- C8: for every text, the extracted invoice total is — exactly when the
document type is "invoice" — the value of the first total/amount-due pattern
(in table order) that matches and whose captured, comma-stripped group
parses as a float, and `none` when no pattern matches; on the spec's sample
text, the result is document type "invoice", total 12500, and the
`high_value_invoice` compliance flag. -/
theorem claim8_invoice_total :
    (∀ s : String,
      (pdfProcess s).totalAmount =
        (if determineDocumentType s = "invoice" then invoiceTotalSpec s else none)) ∧
    (pdfProcess invoiceSampleText).documentType = "invoice" ∧
    (pdfProcess invoiceSampleText).totalAmount = some (.fin 12500) ∧
    "high_value_invoice" ∈ (pdfProcess invoiceSampleText).flags := by
  refine ⟨?_, ?_, ?_, ?_⟩
  · intro s
    show (if determineDocumentType s = "invoice"
          then extractInvoiceTotal invoiceTotalPats s else none) = _
    rw [extractInvoiceTotal_eq_findSome s invoiceTotalPats]
    rfl
  · rfl
  · rfl
  · have hfl : (pdfProcess invoiceSampleText).flags = ["high_value_invoice"] := by rfl
    rw [hfl]
    exact List.mem_singleton.mpr rfl

end MAS
